import Mathlib

/-!
Shallow embedding of the rusrat ray tracer (src/) in Lean 4, with theorems
checking the natural-language specification against the code.

Modelling conventions:
* `f64` values are modelled as exact rationals (`ℚ`).
* The foreign math functions `f64::sqrt`, `f64::tan` and `f64::powf` have no
  exact computable counterpart on `ℚ`; they are modelled by the computable
  functions `fsqrt`, `ftan` and `fpow` below.  `fsqrt` is exact on perfect
  squares of rationals and `fpow` is exact for natural-number exponents; no
  theorem below depends on their values outside those ranges.
* Rust `Vec` becomes `List`, struct update through `&mut` becomes explicit
  state passing, and a panicking `assert!` becomes an `Option` result in the
  `..._checked` variants.
* Reference identity (`&Shape` pointer comparisons via `Material`'s
  pointer-based `PartialEq`) is modelled by an explicit allocation id on
  `Material`.
-/

namespace Rusrat

/-- Models `f64::sqrt` on exact rationals: returns the exact square root when
the (reduced) numerator and denominator are perfect squares, and 0 otherwise.
No theorem in this file depends on its values outside perfect squares. -/
def fsqrt (q : ℚ) : ℚ :=
  if q < 0 then 0
  else
    let sn := Nat.sqrt q.num.toNat
    let sd := Nat.sqrt q.den
    if sn * sn = q.num.toNat ∧ sd * sd = q.den then (sn : ℚ) / (sd : ℚ) else 0

/-- Models `f64::powf`: exact when the exponent is a non-negative integer
(the only exponents used by the code paths reasoned about below, e.g. the
material shininess 200.0), and 0 otherwise. -/
def fpow (b e : ℚ) : ℚ :=
  if e.den = 1 ∧ 0 ≤ e.num then b ^ e.num.toNat else 0

/-- Models `f64::tan`. Every theorem below that involves `ftan` is structural
(the same `ftan` application appears on both sides), so its values are
irrelevant; it is given a trivial computable body. -/
def ftan (_ : ℚ) : ℚ := 0

/-- The epsilon used by `tuple.rs`'s `equal` (1e-4). -/
def tupleEPSILON : ℚ := 1 / 10000

/-- Models `tuple.rs`'s `equal`: `(x - y).abs() <= EPSILON`. -/
def equal (x y : ℚ) : Bool := |x - y| ≤ tupleEPSILON

/-- Models the `Tuple` struct of `tuple.rs`: both points (w = 1) and
vectors (w = 0). -/
structure Tuple where
  x : ℚ
  y : ℚ
  z : ℚ
  w : ℚ
  deriving DecidableEq

namespace Tuple

/-- Models `Tuple::new`. -/
def new (x y z w : ℚ) : Tuple := ⟨x, y, z, w⟩

/-- Models `Tuple::point_new` (w = 1). -/
def point_new (x y z : ℚ) : Tuple := new x y z 1

/-- Models `Tuple::vector_new` (w = 0). -/
def vector_new (x y z : ℚ) : Tuple := new x y z 0

/-- Models `Tuple::is_point`. -/
def is_point (t : Tuple) : Bool := equal t.w 1

/-- Models `Tuple::is_vector`. -/
def is_vector (t : Tuple) : Bool := equal t.w 0

/-- Models `Tuple::negate` (negates all four components). -/
def negate (t : Tuple) : Tuple := new (-t.x) (-t.y) (-t.z) (-t.w)

/-- Models `Tuple::magnitude`: `sqrt(x^2 + y^2 + z^2)`. -/
def magnitude (t : Tuple) : ℚ := fsqrt (t.x ^ 2 + t.y ^ 2 + t.z ^ 2)

/-- Models `Tuple::normalise`: divides x, y, z by the magnitude and returns a
vector (`vector_new`, hence w = 0) regardless of the input's w. -/
def normalise (t : Tuple) : Tuple :=
  let mag := t.magnitude
  vector_new (t.x / mag) (t.y / mag) (t.z / mag)

/-- The arithmetic of `Tuple::dot` (the sum of component products, w
included), without the `assert!`. -/
def dot (a b : Tuple) : ℚ := a.x * b.x + a.y * b.y + a.z * b.z + a.w * b.w

/-- Models `Tuple::dot` including its `assert!`: the assertion failure
(a panic) is modelled as `none`. -/
def dot_checked (a b : Tuple) : Option ℚ :=
  if a.is_vector && b.is_vector then some (dot a b) else none

/-- The arithmetic of `Tuple::cross`, without the `assert!`. -/
def cross (a b : Tuple) : Tuple :=
  vector_new (a.y * b.z - a.z * b.y) (a.z * b.x - a.x * b.z)
    (a.x * b.y - a.y * b.x)

/-- Models `Tuple::cross` including its `assert!` (panic modelled as
`none`). -/
def cross_checked (a b : Tuple) : Option Tuple :=
  if a.is_vector && b.is_vector then some (cross a b) else none

/-- Models tuple addition (`impl Add for Tuple`). -/
def add (a b : Tuple) : Tuple := ⟨a.x + b.x, a.y + b.y, a.z + b.z, a.w + b.w⟩

/-- Models tuple subtraction (`impl Sub for Tuple`). -/
def sub (a b : Tuple) : Tuple := ⟨a.x - b.x, a.y - b.y, a.z - b.z, a.w - b.w⟩

/-- Models scalar multiplication (`impl Mul<f64> for Tuple` and
`impl Mul<&Tuple> for f64`), which scales all four components. -/
def smul (k : ℚ) (t : Tuple) : Tuple := ⟨k * t.x, k * t.y, k * t.z, k * t.w⟩

/-- The arithmetic of `Tuple::reflect`: `self` is the normal, `other` the
incoming vector; result is `other - 2 * self * other.dot(self)`. -/
def reflect (self other : Tuple) : Tuple :=
  sub other (smul (dot other self) (smul 2 self))

/-- Models `Tuple::reflect` including its `assert!` (panic modelled as
`none`). -/
def reflect_checked (self other : Tuple) : Option Tuple :=
  if self.is_vector && other.is_vector then some (reflect self other) else none

/-- Models `Tuple`'s `PartialEq`: componentwise epsilon comparison. -/
def tupleEq (a b : Tuple) : Bool :=
  equal a.w b.w && equal a.x b.x && equal a.y b.y && equal a.z b.z

end Tuple

/-- Models the `Colour` struct of `canvas.rs`. -/
structure Colour where
  red : ℚ
  green : ℚ
  blue : ℚ
  deriving DecidableEq

namespace Colour

/-- Models `Colour::new`. -/
def new (red green blue : ℚ) : Colour := ⟨red, green, blue⟩

/-- Models `Colour::black`. -/
def black : Colour := new 0 0 0

/-- Models `Colour::white`. -/
def white : Colour := new 1 1 1

/-- Models colour addition (`impl Add for Colour`). -/
def add (a b : Colour) : Colour :=
  new (b.red + a.red) (b.green + a.green) (b.blue + a.blue)

/-- Models colour-by-scalar multiplication (`impl Mul<f64> for Colour`). -/
def smul (c : Colour) (k : ℚ) : Colour :=
  new (k * c.red) (k * c.green) (k * c.blue)

/-- Models componentwise colour multiplication (`impl Mul for Colour`). -/
def mul (a b : Colour) : Colour :=
  new (a.red * b.red) (a.green * b.green) (a.blue * b.blue)

/-- Models `Colour`'s `PartialEq` (epsilon 1e-5, strict `<`). -/
def colourEq (a b : Colour) : Bool :=
  |a.blue - b.blue| < 1 / 100000 && |a.green - b.green| < 1 / 100000 &&
    |a.red - b.red| < 1 / 100000

end Colour

/-- Models `matrices.rs`'s `Matrix<f64, 4, 4>` (`[[f64; 4]; 4]` row-major
data) as a list of rows. -/
abbrev Mat4 : Type := List (List ℚ)

/-- Models `Matrix<f64, 3, 3>`. -/
abbrev Mat3 : Type := List (List ℚ)

/-- Models `Matrix<f64, 2, 2>`. -/
abbrev Mat2 : Type := List (List ℚ)

/-- Models `Matrix::from_array` for a 4x4 matrix, rows listed left to right,
top to bottom. -/
def mk4x4 (a00 a01 a02 a03 a10 a11 a12 a13 a20 a21 a22 a23 a30 a31 a32 a33 : ℚ) :
    Mat4 :=
  [[a00, a01, a02, a03], [a10, a11, a12, a13], [a20, a21, a22, a23],
    [a30, a31, a32, a33]]

/-- Models `Matrix::from_array` for a 3x3 matrix. -/
def mk3x3 (a00 a01 a02 a10 a11 a12 a20 a21 a22 : ℚ) : Mat3 :=
  [[a00, a01, a02], [a10, a11, a12], [a20, a21, a22]]

/-- Reads `data[i][j]` (the `Index` impl); out-of-range reads, which never
happen on the modelled code paths, return 0. -/
def entry (m : List (List ℚ)) (i j : ℕ) : ℚ := (m.getD i []).getD j 0

/-- Models `Matrix::identity` for the 4x4 case. -/
def identity4 : Mat4 := mk4x4 1 0 0 0 0 1 0 0 0 0 1 0 0 0 0 1

/-- Models `matrices.rs`'s `translation` (identity with the fourth column's
first three rows overwritten by x, y, z). -/
def translation (x y z : ℚ) : Mat4 :=
  mk4x4 1 0 0 x 0 1 0 y 0 0 1 z 0 0 0 1

/-- Models `matrices.rs`'s `scale` builder (identity with the first three
diagonal entries overwritten by x, y, z); `Matrix::scaling` in later call
sites is this same construction. -/
def scaling (x y z : ℚ) : Mat4 :=
  mk4x4 x 0 0 0 0 y 0 0 0 0 z 0 0 0 0 1

/-- Models `Matrix::transpose`: `out[i][j] = self[j][i]`. -/
def transpose4 (m : Mat4) : Mat4 :=
  mk4x4 (entry m 0 0) (entry m 1 0) (entry m 2 0) (entry m 3 0)
    (entry m 0 1) (entry m 1 1) (entry m 2 1) (entry m 3 1)
    (entry m 0 2) (entry m 1 2) (entry m 2 2) (entry m 3 2)
    (entry m 0 3) (entry m 1 3) (entry m 2 3) (entry m 3 3)

/-- The index-skipping map behind `submatrix`'s
`(0..SIZE).filter(|i| *i != row)`: position `i` of the filtered list is `i`
when `i < row` and `i + 1` otherwise. -/
def subIdx (k i : ℕ) : ℕ := if i < k then i else i + 1

/-- Models `Matrix<f64, 4, 4>::submatrix` (drop row `row` and column
`col`), with the filtered index lists unrolled through `subIdx`. -/
def submatrix4 (m : Mat4) (row col : ℕ) : Mat3 :=
  mk3x3 (entry m (subIdx row 0) (subIdx col 0))
    (entry m (subIdx row 0) (subIdx col 1))
    (entry m (subIdx row 0) (subIdx col 2))
    (entry m (subIdx row 1) (subIdx col 0))
    (entry m (subIdx row 1) (subIdx col 1))
    (entry m (subIdx row 1) (subIdx col 2))
    (entry m (subIdx row 2) (subIdx col 0))
    (entry m (subIdx row 2) (subIdx col 1))
    (entry m (subIdx row 2) (subIdx col 2))

/-- Models `Matrix<f64, 2, 2>::determinant`. -/
def determinant2 (m : Mat2) : ℚ :=
  entry m 0 0 * entry m 1 1 - entry m 0 1 * entry m 1 0

/-- Models `Matrix<f64, 3, 3>::submatrix`. -/
def submatrix3 (m : Mat3) (row col : ℕ) : Mat2 :=
  [[entry m (subIdx row 0) (subIdx col 0), entry m (subIdx row 0) (subIdx col 1)],
    [entry m (subIdx row 1) (subIdx col 0), entry m (subIdx row 1) (subIdx col 1)]]

/-- Models `Matrix<f64, 3, 3>::minor`. -/
def minor3 (m : Mat3) (row col : ℕ) : ℚ := determinant2 (submatrix3 m row col)

/-- Models `Matrix<f64, 3, 3>::cofactor` (sign from `(row + col) % 2`). -/
def cofactor3 (m : Mat3) (row col : ℕ) : ℚ :=
  if (row + col) % 2 = 0 then minor3 m row col else -minor3 m row col

/-- Models `Matrix<f64, 3, 3>::determinant` (cofactor expansion along row 0,
the `(0..SIZE).map(...).sum()` unrolled). -/
def determinant3 (m : Mat3) : ℚ :=
  entry m 0 0 * cofactor3 m 0 0 + entry m 0 1 * cofactor3 m 0 1 +
    entry m 0 2 * cofactor3 m 0 2

/-- Models `Matrix<f64, 4, 4>::minor`. -/
def minor4 (m : Mat4) (row col : ℕ) : ℚ := determinant3 (submatrix4 m row col)

/-- Models `Matrix<f64, 4, 4>::cofactor`. -/
def cofactor4 (m : Mat4) (row col : ℕ) : ℚ :=
  if (row + col) % 2 = 0 then minor4 m row col else -minor4 m row col

/-- Models `Matrix<f64, 4, 4>::determinant`. -/
def determinant4 (m : Mat4) : ℚ :=
  entry m 0 0 * cofactor4 m 0 0 + entry m 0 1 * cofactor4 m 0 1 +
    entry m 0 2 * cofactor4 m 0 2 + entry m 0 3 * cofactor4 m 0 3

/-- Models `Matrix<f64, 4, 4>::inverse`: `out[j][i] = cofactor(i, j) / det`,
the adjugate/cofactor method, with the `iproduct!` loop unrolled.  The
source `assert!`s invertibility; here division by a zero determinant is the
total-function junk value, and every theorem below that uses `inverse`
either supplies a nonzero determinant or does not depend on the result. -/
def inverse (m : Mat4) : Mat4 :=
  let det := determinant4 m
  mk4x4 (cofactor4 m 0 0 / det) (cofactor4 m 1 0 / det)
    (cofactor4 m 2 0 / det) (cofactor4 m 3 0 / det)
    (cofactor4 m 0 1 / det) (cofactor4 m 1 1 / det)
    (cofactor4 m 2 1 / det) (cofactor4 m 3 1 / det)
    (cofactor4 m 0 2 / det) (cofactor4 m 1 2 / det)
    (cofactor4 m 2 2 / det) (cofactor4 m 3 2 / det)
    (cofactor4 m 0 3 / det) (cofactor4 m 1 3 / det)
    (cofactor4 m 2 3 / det) (cofactor4 m 3 3 / det)

/-- Models `Mul<&Tuple> for Matrix<f64, 4, 4>`: each component is the row
zipped with the tuple's components. -/
def matVecMul (m : Mat4) (t : Tuple) : Tuple :=
  Tuple.new
    (entry m 0 0 * t.x + entry m 0 1 * t.y + entry m 0 2 * t.z + entry m 0 3 * t.w)
    (entry m 1 0 * t.x + entry m 1 1 * t.y + entry m 1 2 * t.z + entry m 1 3 * t.w)
    (entry m 2 0 * t.x + entry m 2 1 * t.y + entry m 2 2 * t.z + entry m 2 3 * t.w)
    (entry m 3 0 * t.x + entry m 3 1 * t.y + entry m 3 2 * t.z + entry m 3 3 * t.w)

/-- Models `Matrix`'s `PartialEq` (all 16 entries within 1e-5, strict). -/
def matEq (a b : Mat4) : Bool :=
  (List.range 4).all fun i =>
    (List.range 4).all fun j => |entry a i j - entry b i j| < 1 / 100000

/-- Models the closed set of pattern implementations of `shapes.rs`
(`StripePattern`, `CheckPattern3D`, `TestPattern`), each carrying its own
transform. -/
inductive Pattern where
  | stripe (colour_a colour_b : Colour) (transform : Mat4)
  | check3d (colour_a colour_b : Colour) (transform : Mat4)
  | test (transform : Mat4)
  deriving DecidableEq

namespace Pattern

/-- The pattern's own transform. -/
def transform : Pattern → Mat4
  | .stripe _ _ t => t
  | .check3d _ _ t => t
  | .test t => t

/-- Models the `pattern_at` methods.  Rust's `as i32 % 2` is truncated
remainder, modelled by `Int.tmod`. -/
def pattern_at : Pattern → Tuple → Colour
  | .stripe a b _, point => if Int.tmod ⌊point.x⌋ 2 = 0 then a else b
  | .check3d a b _, point =>
      if Int.tmod (⌊point.x⌋ + ⌊point.y⌋ + ⌊point.z⌋) 2 = 0 then a else b
  | .test _, point => Colour.new point.x point.y point.z

end Pattern

/-- Models `shapes.rs`'s `Material`.  The extra `alloc` field models the
allocation address that `Material`'s `PartialEq` compares
(`self as *const _ == other as *const _`): two materials are "equal" only
when they are the same allocation. -/
structure Material where
  colour : Colour
  ambient : ℚ
  diffuse : ℚ
  specular : ℚ
  shininess : ℚ
  reflectivity : ℚ
  transparency : ℚ
  refractive_index : ℚ
  pattern : Option Pattern
  alloc : ℕ
  deriving DecidableEq

/-- Models `Material::default` (ambient 0.1, diffuse 0.9, specular 0.9,
shininess 200, vacuum refractive index); `alloc` picks the modelled
allocation identity of this particular default-constructed material. -/
def Material.mkDefault (alloc : ℕ) : Material :=
  { colour := Colour.new 1 1 1, ambient := 1 / 10, diffuse := 9 / 10,
    specular := 9 / 10, shininess := 200, reflectivity := 0,
    transparency := 0, refractive_index := 1, pattern := none, alloc := alloc }

/-- Models `Material`'s pointer-based `PartialEq`. -/
def materialEq (a b : Material) : Bool := a.alloc == b.alloc

/-- Models `shapes.rs`'s `ShapeType`. -/
inductive ShapeType where
  | Sphere
  | Plane
  deriving DecidableEq

/-- Models `shapes.rs`'s `Shape`. -/
structure Shape where
  material : Material
  transform : Mat4
  shape : ShapeType
  deriving DecidableEq

/-- Models `Shape`'s derived `PartialEq`: material by pointer, transform by
epsilon matrix equality, kind exactly. -/
def shapeEq (a b : Shape) : Bool :=
  materialEq a.material b.material && matEq a.transform b.transform &&
    a.shape == b.shape

/-- Models `pattern_at_object` (common to all three pattern impls): world
point into the shape's object space, then into pattern space, then
`pattern_at`. -/
def Pattern.pattern_at_object (p : Pattern) (object : Shape) (point : Tuple) :
    Colour :=
  let object_space_point := matVecMul (inverse object.transform) point
  let pattern_point := matVecMul (inverse p.transform) object_space_point
  p.pattern_at pattern_point

/-- Models `rays.rs`'s `Ray`. -/
structure Ray where
  origin : Tuple
  direction : Tuple
  deriving DecidableEq

namespace Ray

/-- Models `Ray::new`. -/
def new (point vector : Tuple) : Ray := ⟨point, vector⟩

/-- Models `Ray::position`: `origin + t * direction` (all four
components). -/
def position (r : Ray) (t : ℚ) : Tuple := r.origin.add (Tuple.smul t r.direction)

/-- Models `Ray::transform`: applies the matrix to origin and direction. -/
def transform (r : Ray) (m : Mat4) : Ray :=
  ⟨matVecMul m r.origin, matVecMul m r.direction⟩

end Ray

/-- Models `rays.rs`'s `Intersection`: a ray parameter `t` plus the
intersected shape (a borrow in the source, a value here; identity lives in
the material's `alloc`). -/
structure Intersection where
  t : ℚ
  object : Shape
  deriving DecidableEq

/-- Models `Intersection::new`. -/
def Intersection.new (t : ℚ) (object : Shape) : Intersection := ⟨t, object⟩

/-- Models `Intersection`'s derived `PartialEq` (exact `f64` equality on `t`,
`Shape` equality through the borrow). -/
def intersectionEq (a b : Intersection) : Bool :=
  a.t == b.t && shapeEq a.object b.object

namespace sphere

/-- Models `sphere::normal_at` (object-space point minus the origin
point). -/
def normal_at (point : Tuple) : Tuple := point.sub (Tuple.point_new 0 0 0)

/-- Models `sphere::default`. -/
def mkDefault (alloc : ℕ) : Shape :=
  { material := Material.mkDefault alloc, transform := identity4,
    shape := .Sphere }

/-- Models `sphere::glass_sphere` (transparency 1, refractive index 1.5). -/
def glass_sphere (alloc : ℕ) : Shape :=
  let m := Material.mkDefault alloc
  { material := { m with transparency := 1, refractive_index := 3 / 2 },
    transform := identity4, shape := .Sphere }

/-- Models `sphere::intersects` on the already-object-space ray: quadratic
in `t`, empty on negative discriminant, otherwise the two roots. -/
def intersects (s : Shape) (r : Ray) : List Intersection :=
  let sphere_to_ray := r.origin.sub (Tuple.point_new 0 0 0)
  let a := Tuple.dot r.direction r.direction
  let b := 2 * Tuple.dot r.direction sphere_to_ray
  let c := Tuple.dot sphere_to_ray sphere_to_ray - 1
  let discriminant := b ^ 2 - 4 * a * c
  if discriminant < 0 then []
  else
    [Intersection.new ((-b - fsqrt discriminant) / (2 * a)) s,
      Intersection.new ((-b + fsqrt discriminant) / (2 * a)) s]

end sphere

namespace plane

/-- Models `plane::normal_at` — note the source builds the constant normal
with `Tuple::point_new`, so its w is 1 until `normalise` later zeroes it. -/
def normal_at : Tuple := Tuple.point_new 0 1 0

/-- Models `plane::default`. -/
def mkDefault (alloc : ℕ) : Shape :=
  { material := Material.mkDefault alloc, transform := identity4,
    shape := .Plane }

/-- Models `plane::intersects` on the already-object-space ray: no
intersection when `|direction.y| < 1e-5`, else one intersection at
`-origin.y / direction.normalise().y` (note the normalised denominator). -/
def intersects (pl : Shape) (r : Ray) : List Intersection :=
  if |r.direction.y| < 1 / 100000 then []
  else [Intersection.new (-r.origin.y / r.direction.normalise.y) pl]

end plane

/-- Models `Shape::normal_at`: point into object space, shape-local normal,
back through the transposed inverse, then normalise. -/
def Shape.normal_at (s : Shape) (point : Tuple) : Tuple :=
  let transform_inverse := inverse s.transform
  let object_space_point := matVecMul transform_inverse point
  let object_space_normal :=
    match s.shape with
    | .Sphere => sphere.normal_at object_space_point
    | .Plane => plane.normal_at
  let world_space_normal :=
    matVecMul (transpose4 transform_inverse) object_space_normal
  world_space_normal.normalise

/-- Models `Shape::intersects`: ray into object space, then dispatch on the
shape kind. -/
def Shape.intersects (s : Shape) (r : Ray) : List Intersection :=
  let transform_inverse := inverse s.transform
  let object_space_ray := r.transform transform_inverse
  match s.shape with
  | .Sphere => sphere.intersects s object_space_ray
  | .Plane => plane.intersects s object_space_ray

/-- Models `f64::EPSILON` (2^-52), used by `Intersection::partial_cmp`. -/
def f64EPSILON : ℚ := 1 / 2 ^ 52

/-- Models `Intersection::partial_cmp` (`rays.rs`): `Equal` when the `t`s
are within `f64::EPSILON`, else ordered by `t`. -/
def intersection_cmp (a b : Intersection) : Ordering :=
  if |a.t - b.t| < f64EPSILON then .eq
  else if a.t > b.t then .gt
  else .lt

/-- One step of `Iterator::min_by` (`core::cmp::min_by`): keep the earlier
element unless the new one compares strictly `Less`. -/
def min_by_step (acc : Option Intersection) (x : Intersection) :
    Option Intersection :=
  match acc with
  | none => some x
  | some a => if intersection_cmp x a = .lt then some x else some a

/-- Models `Intersection::hit`: filter to `t >= 0`, then `min_by` with
`partial_cmp`. -/
def hit (intersections : List Intersection) : Option Intersection :=
  (intersections.filter fun x => decide (0 ≤ x.t)).foldl min_by_step none

/-- Models `lighting.rs`'s `PointLight`. -/
structure PointLight where
  intensity : Colour
  position : Tuple
  deriving DecidableEq

/-- Models `world.rs`'s `World`. -/
structure World where
  objects : List Shape
  lights : List PointLight

/-- Models `Ray::intersects_world` over `Shape`s: the per-shape
intersections appended in object order, then stably sorted by
`partial_cmp`. -/
def intersects_world (r : Ray) (w : World) : List Intersection :=
  ((w.objects.map fun s => s.intersects r).foldl (· ++ ·) []).mergeSort
    fun a b => intersection_cmp a b ≠ .gt

/-- Models `lighting.rs`'s `PreComputation`. -/
structure PreComputation where
  object : Shape
  point : Tuple
  eye_vec : Tuple
  reflect_vec : Tuple
  normal : Tuple
  t : ℚ
  inside : Bool
  over_point : Tuple
  under_point : Tuple
  n1 : ℚ
  n2 : ℚ

/-- Refractive index of the last object entered but not yet exited
(`objects_ray_is_inside_of.last()`), or 1.0 (vacuum) when the stack is
empty. -/
def stack_last_refractive (stack : List Shape) : ℚ :=
  match stack.getLast? with
  | none => 1
  | some s => s.material.refractive_index

/-- Models the stack toggle in `prepare_computations`: remove the object if
it is already in the containment list (`position` + `remove`), else push
it. -/
def toggle_shape (stack : List Shape) (obj : Shape) : List Shape :=
  match stack.findIdx? fun o => shapeEq obj o with
  | some x => stack.eraseIdx x
  | none => stack ++ [obj]

/-- Models the `for intersect in intersections` walk of
`prepare_computations` that computes (n1, n2): at the hit, n1 is the top of
the containment stack before toggling the hit's object and n2 the top after,
then the loop `break`s; when the hit never occurs in the list the fields
keep their 0.0 initialisers. -/
def refractive_walk (i : Intersection) :
    List Shape → List Intersection → ℚ × ℚ
  | _, [] => (0, 0)
  | stack, intersect :: rest =>
    if intersectionEq i intersect then
      (stack_last_refractive stack,
        stack_last_refractive (toggle_shape stack intersect.object))
    else refractive_walk i (toggle_shape stack intersect.object) rest

/-- Models `prepare_computations` (`lighting.rs`): hit point, eye vector,
possibly flipped normal with `inside` flag, reflection vector (after the
flip), over/under points (epsilon 1e-7), and the (n1, n2) refractive pair
from the containment-stack walk. -/
def prepare_computations (i : Intersection) (r : Ray)
    (intersections : List Intersection) : PreComputation :=
  let EPSILON : ℚ := 1 / 10000000
  let p := r.position i.t
  let normal0 := i.object.normal_at p
  let eye_vec := r.direction.negate
  let flip := Tuple.dot normal0 eye_vec < 0
  let normal := if flip then normal0.negate else normal0
  let reflect_vec := Tuple.reflect normal r.direction
  let pair := refractive_walk i [] intersections
  { object := i.object, point := p, eye_vec := eye_vec,
    reflect_vec := reflect_vec, normal := normal, t := i.t,
    inside := decide flip,
    over_point := p.add (Tuple.smul EPSILON normal),
    under_point := p.sub (Tuple.smul EPSILON normal),
    n1 := pair.1, n2 := pair.2 }

/-- Models `calculate_lighting`: ambient-only in shadow, else the Phong
ambient + diffuse + specular sum. -/
def calculate_lighting (material : Material) (object : Shape)
    (light : PointLight) (posn eye_vec normal : Tuple) (in_shadow : Bool) :
    Colour :=
  let light_vec := ((light.position).sub posn).normalise
  let effective_colour :=
    match material.pattern with
    | none => material.colour.mul light.intensity
    | some p => (p.pattern_at_object object posn).mul light.intensity
  let ambient_term := effective_colour.smul material.ambient
  match in_shadow with
  | true => ambient_term
  | false =>
    let light_normal_dot := Tuple.dot light_vec normal
    let diffuse :=
      if light_normal_dot < 0 then Colour.new 0 0 0
      else (effective_colour.smul material.diffuse).smul light_normal_dot
    let specular :=
      if light_normal_dot < 0 then Colour.new 0 0 0
      else
        let reflect_vec := Tuple.reflect normal light_vec.negate
        let reflect_eye_dot := Tuple.dot reflect_vec eye_vec
        if reflect_eye_dot ≤ 0 then Colour.new 0 0 0
        else (light.intensity.smul material.specular).smul
          (fpow reflect_eye_dot material.shininess)
    (ambient_term.add diffuse).add specular

/-- Models `is_shadowed`: casts a ray from the point to the first light
(`w.lights[0]`; worlds reasoned about always carry at least one light, the
`headD` default models the source's panicking index otherwise) and checks
whether the nearest hit is closer than the light. -/
def is_shadowed (w : World) (p : Tuple) : Bool :=
  let light0 := w.lights.headD ⟨Colour.black, Tuple.point_new 0 0 0⟩
  let point_to_light := light0.position.sub p
  let distance_to_light := point_to_light.magnitude
  let point_to_light_ray := Ray.new p point_to_light.normalise
  let intersections := intersects_world point_to_light_ray w
  match hit intersections with
  | none => false
  | some h => decide (h.t < distance_to_light)

/-- Models `schlick`: with n1 > n2 checks total internal reflection (then
reflectance 1) and uses the refracted cosine; the source's mutation of
`cosine` is modelled by branch duplication. -/
def schlick (c : PreComputation) : ℚ :=
  let cosine := Tuple.dot c.eye_vec c.normal
  if c.n1 > c.n2 then
    let n := c.n1 / c.n2
    let sin2_t := n ^ 2 * (1 - cosine ^ 2)
    if sin2_t > 1 then 1
    else
      let cos_t := fsqrt (1 - sin2_t)
      let r0 := ((c.n1 - c.n2) / (c.n1 + c.n2)) ^ 2
      r0 + (1 - r0) * (1 - cos_t) ^ 5
  else
    let r0 := ((c.n1 - c.n2) / (c.n1 + c.n2)) ^ 2
    r0 + (1 - r0) * (1 - cosine) ^ 5

mutual

/-- Models `colour_at`: intersect the world, take the hit, shade it (black
background when there is no hit). -/
def colour_at (w : World) (r : Ray) (remaining_recursions : ℕ) : Colour :=
  let inters := intersects_world r w
  match hit inters with
  | some h => shade_hit w (prepare_computations h r inters) remaining_recursions
  | none => Colour.new 0 0 0
termination_by (remaining_recursions, 2)

/-- Models `shade_hit`: sum of `calculate_lighting` over the lights plus the
reflected and refracted contributions, Schlick-blended when the material is
both reflective and transparent. -/
def shade_hit (w : World) (c : PreComputation) (remaining_recursions : ℕ) :
    Colour :=
  let base := w.lights.foldl
    (fun out light => out.add
      (calculate_lighting c.object.material c.object light c.over_point
        c.eye_vec c.normal (is_shadowed w c.over_point)))
    (Colour.new 0 0 0)
  let reflected := reflected_colour w c remaining_recursions
  let refracted := refracted_colour w c remaining_recursions
  let material := c.object.material
  if material.reflectivity > 0 ∧ material.transparency > 0 then
    let reflectance := schlick c
    (base.add (reflected.smul reflectance)).add
      (refracted.smul (1 - reflectance))
  else (base.add reflected).add refracted
termination_by (remaining_recursions, 1)

/-- Models `reflected_colour`: black at depth 0 or reflectivity 0, else
`colour_at` from the over point along the reflection vector at depth - 1,
scaled by the reflectivity. -/
def reflected_colour (w : World) (c : PreComputation)
    (remaining_recursions : ℕ) : Colour :=
  if h : remaining_recursions ≤ 0 ∨ c.object.material.reflectivity = 0 then
    Colour.new 0 0 0
  else
    let reflected_ray := Ray.new c.over_point c.reflect_vec
    let colour := colour_at w reflected_ray (remaining_recursions - 1)
    colour.smul c.object.material.reflectivity
termination_by (remaining_recursions, 0)

/-- Models `refracted_colour`: Snell-law outcome with black on zero
transparency, exhausted recursion, or total internal reflection, else
`colour_at` of the refracted ray from the under point at depth - 1, scaled
by the transparency. -/
def refracted_colour (w : World) (c : PreComputation)
    (remaining_recursions : ℕ) : Colour :=
  let n_ratio := c.n1 / c.n2
  let cos_i := Tuple.dot c.eye_vec c.normal
  let sin2_t := n_ratio ^ 2 * (1 - cos_i ^ 2)
  if h : c.object.material.transparency = 0 ∨ remaining_recursions = 0 ∨
      sin2_t > 1 then
    Colour.black
  else
    let cos_t := fsqrt (1 - sin2_t)
    let dirn := (c.normal.smul (n_ratio * cos_i - cos_t)).sub
      (c.eye_vec.smul n_ratio)
    let refracted_ray := Ray.new c.under_point dirn
    (colour_at w refracted_ray (remaining_recursions - 1)).smul
      c.object.material.transparency
termination_by (remaining_recursions, 0)

end

/-- A second definition of the refracted colour following the spec's words
(for the refinement claim about `refracted_colour`): black on zero
transparency or exhausted depth, then the Snell computation, black on total
internal reflection, else the recursive `colour_at` from the under point
scaled by the transparency. -/
def refracted_colour_spec (w : World) (c : PreComputation)
    (remaining_recursions : ℕ) : Colour :=
  if c.object.material.transparency = 0 ∨ remaining_recursions = 0 then
    Colour.black
  else
    let n_ratio := c.n1 / c.n2
    let cos_i := Tuple.dot c.eye_vec c.normal
    let sin2_t := n_ratio ^ 2 * (1 - cos_i ^ 2)
    if sin2_t > 1 then Colour.black
    else
      let cos_t := fsqrt (1 - sin2_t)
      let dirn := (c.normal.smul (n_ratio * cos_i - cos_t)).sub
        (c.eye_vec.smul n_ratio)
      (colour_at w (Ray.new c.under_point dirn) (remaining_recursions - 1)).smul
        c.object.material.transparency

/-- The spec's description of the containment stack after processing a
prefix of the sorted intersection list: fold the enter/exit toggle over the
prefix, starting from the empty stack. -/
def containment_stack (xs : List Intersection) : List Shape :=
  xs.foldl (fun stack x => toggle_shape stack x.object) []

/-- Models `world.rs`'s `Camera`: pixel dimensions, field of view, transform,
and the three `Option`-wrapped memoisation slots the source declares
(`// cache/memoise these values`). -/
structure Camera where
  hsize : ℕ
  vsize : ℕ
  field_of_view : ℚ
  transform : Mat4
  pixel_size : Option ℚ
  half_width : Option ℚ
  half_height : Option ℚ
  deriving DecidableEq

namespace Camera

/-- Models `Camera::new`: stores the inputs and leaves all three derived
scalars unset (`None`). -/
def new (hsize vsize : ℕ) (fov : ℚ) (t : Mat4) : Camera :=
  { hsize := hsize, vsize := vsize, field_of_view := fov, transform := t,
    pixel_size := none, half_width := none, half_height := none }

/-- Models the `half_width(&mut self)` getter: return the cached value, or
compute `tan(fov/2)` scaled by the aspect rule, cache it and return it.
`&mut self` is modelled by returning the updated camera. -/
def half_width_get (c : Camera) : ℚ × Camera :=
  match c.half_width with
  | some hw => (hw, c)
  | none =>
    let half_view := ftan (c.field_of_view / 2)
    let aspect := (c.hsize : ℚ) / (c.vsize : ℚ)
    let hw := if aspect ≥ 1 then half_view else half_view * aspect
    (hw, { c with half_width := some hw })

/-- Models the `half_height(&mut self)` getter. -/
def half_height_get (c : Camera) : ℚ × Camera :=
  match c.half_height with
  | some hh => (hh, c)
  | none =>
    let half_view := ftan (c.field_of_view / 2)
    let aspect := (c.hsize : ℚ) / (c.vsize : ℚ)
    let hh := if aspect ≥ 1 then half_view / aspect else half_view
    (hh, { c with half_height := some hh })

/-- Models the `pixel_size(&mut self)` getter: cached value, or
`half_width() * 2 / hsize` (itself possibly caching the half width). -/
def pixel_size_get (c : Camera) : ℚ × Camera :=
  match c.pixel_size with
  | some ps => (ps, c)
  | none =>
    let hw := c.half_width_get
    let ps := hw.1 * 2 / (c.hsize : ℚ)
    (ps, { hw.2 with pixel_size := some ps })

/-- Models `Camera::ray_for_pixel`, threading the `&mut self` getter calls
in source order: `pixel_size()` for the x offset, `pixel_size()` again for
the y offset, then `half_width()` and `half_height()`. -/
def ray_for_pixel (c : Camera) (x y : ℕ) : Ray × Camera :=
  let s1 := c.pixel_size_get
  let x_offset := ((x : ℚ) + 1 / 2) * s1.1
  let s2 := s1.2.pixel_size_get
  let y_offset := ((y : ℚ) + 1 / 2) * s2.1
  let s3 := s2.2.half_width_get
  let world_x := s3.1 - x_offset
  let s4 := s3.2.half_height_get
  let world_y := s4.1 - y_offset
  let px := matVecMul (inverse c.transform) (Tuple.point_new world_x world_y (-1))
  let origin := matVecMul (inverse c.transform) (Tuple.point_new 0 0 0)
  let direction := (px.sub origin).normalise
  (Ray.new origin direction, s4.2)

end Camera

/-- The spec formula for the half width, as a function of
`(hsize, vsize, field_of_view)` only. -/
def half_width_formula (hsize vsize : ℕ) (fov : ℚ) : ℚ :=
  let half_view := ftan (fov / 2)
  let aspect := (hsize : ℚ) / (vsize : ℚ)
  if aspect ≥ 1 then half_view else half_view * aspect

/-- The spec formula for the half height. -/
def half_height_formula (hsize vsize : ℕ) (fov : ℚ) : ℚ :=
  let half_view := ftan (fov / 2)
  let aspect := (hsize : ℚ) / (vsize : ℚ)
  if aspect ≥ 1 then half_view / aspect else half_view

/-- The spec formula for the pixel size: `2 * half_width / hsize`. -/
def pixel_size_formula (hsize vsize : ℕ) (fov : ℚ) : ℚ :=
  half_width_formula hsize vsize fov * 2 / (hsize : ℚ)

/-- Models `canvas.rs`'s `Canvas` (`Vec<Vec<Colour>>`, indexed
`pixels[y][x]`). -/
structure Canvas where
  width : ℕ
  height : ℕ
  pixels : List (List Colour)
  deriving DecidableEq

namespace Canvas

/-- Models `Canvas::new`: height rows of width black pixels. -/
def new (width height : ℕ) : Canvas :=
  ⟨width, height, List.replicate height (List.replicate width (Colour.new 0 0 0))⟩

/-- Models `Canvas::pixel_at` (`pixels[y][x]`; reads are in range on all
modelled paths, the default is the total-function junk value). -/
def pixel_at (c : Canvas) (x y : ℕ) : Colour :=
  (c.pixels.getD y []).getD x (Colour.new 0 0 0)

/-- Models `Canvas::write_pixel` (`pixels[y][x] = colour`). -/
def write_pixel (c : Canvas) (x y : ℕ) (colour : Colour) : Canvas :=
  { c with pixels := c.pixels.set y ((c.pixels.getD y []).set x colour) }

end Canvas

/-- Models `main.rs`'s `REFLECTION_RECURSION_DEPTH`. -/
def REFLECTION_RECURSION_DEPTH : ℕ := 7

/-- Models `world.rs`'s `render`.  The loop is
`iproduct!(0..cam.hsize - 1, 0..cam.vsize - 1)` — note the `- 1` bounds —
with the camera's `&mut` state threaded through `ray_for_pixel`.  The
per-pixel colour lookup is a parameter: the source line
`colour_at(world, &ray)` calls a two-argument `colour_at` that predates the
recursion-depth parameter of `lighting.rs`'s `colour_at` (the snapshot in
`src/` does not compile as a whole), and the render-loop claims are about
the loop structure, which does not depend on it. -/
def render (colour_at_fn : World → Ray → Colour) (cam : Camera) (world : World) :
    Canvas :=
  let image := Canvas.new cam.hsize cam.vsize
  ((List.range (cam.hsize - 1)).foldl
    (fun (st : Canvas × Camera) x =>
      (List.range (cam.vsize - 1)).foldl
        (fun st y =>
          let rc := st.2.ray_for_pixel x y
          (st.1.write_pixel x y (colour_at_fn world rc.1), rc.2))
        st)
    (image, cam)).1

/-! Concrete scene data used by the closed instances below. -/

/-- A default sphere (`sphere::default`), allocation id 0. -/
def sphere0 : Shape := sphere.mkDefault 0

/-- A default plane (`plane::default`), allocation id 0. -/
def plane0 : Shape := plane.mkDefault 0

/-- Outermost concentric glass sphere: uniform scale 2, refractive index
1.5 (allocation id 1). -/
def glassA : Shape :=
  let g := sphere.glass_sphere 1
  { g with
    transform := scaling 2 2 2 }

/-- Middle concentric glass sphere: translated -0.25 in z, refractive index
2.0 (allocation id 2). -/
def glassB : Shape :=
  let g := sphere.glass_sphere 2
  let m := { g.material with refractive_index := (2 : ℚ) }
  { g with
    transform := translation 0 0 (-1 / 4),
    material := m }

/-- Innermost concentric glass sphere: translated +0.25 in z, refractive
index 2.5 (allocation id 3). -/
def glassC : Shape :=
  let g := sphere.glass_sphere 3
  let m := { g.material with refractive_index := (5 / 2 : ℚ) }
  { g with
    transform := translation 0 0 (1 / 4),
    material := m }

/-- The axis ray of the three-concentric-spheres scenario. -/
def ray_z : Ray := Ray.new (Tuple.point_new 0 0 (-4)) (Tuple.vector_new 0 0 1)

/-- The six ordered intersections of `ray_z` with the three concentric glass
spheres (t = 2, 2.75, 3.25, 4.75, 5.25, 6). -/
def xs_concentric : List Intersection :=
  [Intersection.new 2 glassA, Intersection.new (11 / 4) glassB,
    Intersection.new (13 / 4) glassC, Intersection.new (19 / 4) glassB,
    Intersection.new (21 / 4) glassC, Intersection.new 6 glassA]

/-- An object-space ray with a non-unit direction
(origin (0,-1,0), direction (0,2,0)), separating `-origin.y / direction.y`
from the code's normalised denominator. -/
def ray_plane : Ray := Ray.new (Tuple.point_new 0 (-1) 0) (Tuple.vector_new 0 2 0)

/-- A ray starting inside the default sphere (for the inside/normal-flip
instance). -/
def ray_inside : Ray := Ray.new (Tuple.point_new 0 0 0) (Tuple.vector_new 0 0 1)

/-- The t = 1 intersection of `ray_inside` with the default sphere. -/
def i_inside : Intersection := Intersection.new 1 sphere0

/-- A 2-by-2 camera with the identity transform. -/
def camera_small : Camera := Camera.new 2 2 1 identity4

/-- An empty world. -/
def world_empty : World := ⟨[], []⟩

/-- A constant-white per-pixel colour function, used to expose which pixels
the render loop writes. -/
def white_fn : World → Ray → Colour := fun _ _ => Colour.white

/-! ## Helper lemmas -/

/-- Epsilon-equality of tuples is reflexive. -/
theorem tupleEq_self (a : Tuple) : Tuple.tupleEq a a = true := by
  simp [Tuple.tupleEq, equal, tupleEPSILON]

/-- Dotting a negated tuple negates the dot product. -/
theorem dot_negate_left (a b : Tuple) :
    Tuple.dot a.negate b = -Tuple.dot a b := by
  simp [Tuple.dot, Tuple.negate, Tuple.new]
  ring

/-- The comparator orders strictly `Less` exactly when the left t is at
least an epsilon below the right t. -/
theorem intersection_cmp_lt_iff (a b : Intersection) :
    intersection_cmp a b = .lt ↔ a.t ≤ b.t - f64EPSILON := by
  unfold intersection_cmp
  split_ifs with h1 h2
  · rw [abs_sub_lt_iff] at h1
    constructor
    · intro hc
      simp at hc
    · intro hle
      exfalso
      linarith
  · constructor
    · intro hc
      simp at hc
    · intro hle
      exfalso
      have he : (0 : ℚ) < f64EPSILON := by norm_num [f64EPSILON]
      linarith
  · push_neg at h2
    rw [not_lt] at h1
    rw [abs_of_nonpos (by linarith)] at h1
    simp only [true_iff]
    linarith

/-- The `min_by` fold starting from a `some` accumulator never yields
`none`. -/
theorem min_by_fold_isSome (xs : List Intersection) : ∀ a : Intersection,
    ∃ b, xs.foldl min_by_step (some a) = some b := by
  induction xs with
  | nil => exact fun a => ⟨a, rfl⟩
  | cons x rest ih =>
    intro a
    by_cases hc : intersection_cmp x a = .lt
    · simpa [min_by_step, hc] using ih x
    · simpa [min_by_step, hc] using ih a

/-- Invariant of the `min_by` fold: the result is the accumulator or a list
element, never exceeds the accumulator's t, and is within an epsilon of
being minimal among the list's ts. -/
theorem min_by_fold_spec (xs : List Intersection) : ∀ a b : Intersection,
    xs.foldl min_by_step (some a) = some b →
    (b = a ∨ b ∈ xs) ∧ b.t ≤ a.t ∧ ∀ j ∈ xs, b.t < j.t + f64EPSILON := by
  induction xs with
  | nil =>
    intro a b h
    simp only [List.foldl_nil, Option.some.injEq] at h
    subst h
    exact ⟨Or.inl rfl, le_refl _, by simp⟩
  | cons x rest ih =>
    intro a b h
    simp only [List.foldl_cons] at h
    have he : (0 : ℚ) < f64EPSILON := by norm_num [f64EPSILON]
    by_cases hc : intersection_cmp x a = .lt
    · rw [show min_by_step (some a) x = some x by simp [min_by_step, hc]] at h
      obtain ⟨hmem, hle, hall⟩ := ih x b h
      have hxa : x.t ≤ a.t - f64EPSILON := (intersection_cmp_lt_iff x a).1 hc
      refine ⟨?_, by linarith, ?_⟩
      · rcases hmem with rfl | hm
        · exact Or.inr (List.mem_cons_self _ _)
        · exact Or.inr (List.mem_cons_of_mem _ hm)
      · intro j hj
        rcases List.mem_cons.1 hj with rfl | hj2
        · linarith
        · exact hall j hj2
    · rw [show min_by_step (some a) x = some a by simp [min_by_step, hc]] at h
      obtain ⟨hmem, hle, hall⟩ := ih a b h
      have hxa : ¬x.t ≤ a.t - f64EPSILON := fun hle2 =>
        hc ((intersection_cmp_lt_iff x a).2 hle2)
      push_neg at hxa
      refine ⟨?_, hle, ?_⟩
      · rcases hmem with rfl | hm
        · exact Or.inl rfl
        · exact Or.inr (List.mem_cons_of_mem _ hm)
      · intro j hj
        rcases List.mem_cons.1 hj with rfl | hj2
        · linarith
        · exact hall j hj2

/-- The loop of `prepare_computations` that computes (n1, n2), characterised
against the containment stack folded over the prefix of intersections before
(respectively, up to and including) the first occurrence of the hit. -/
theorem refractive_walk_characterisation (i : Intersection)
    (xs : List Intersection) : ∀ (stack : List Shape) (k : ℕ),
    xs.findIdx (fun x => intersectionEq i x) = k → k < xs.length →
    refractive_walk i stack xs =
      (stack_last_refractive
        ((xs.take k).foldl (fun s x => toggle_shape s x.object) stack),
       stack_last_refractive
        ((xs.take (k + 1)).foldl (fun s x => toggle_shape s x.object) stack)) := by
  induction xs with
  | nil =>
    intro stack k _ hk
    simp at hk
  | cons x rest ih =>
    intro stack k hfind hk
    rw [List.findIdx_cons] at hfind
    by_cases hx : intersectionEq i x
    · simp only [hx, cond_true] at hfind
      subst hfind
      simp [refractive_walk, hx]
    · simp only [hx, cond_false] at hfind
      subst hfind
      simp only [refractive_walk, hx, if_false, Bool.false_eq_true]
      rw [ih (toggle_shape stack x.object) _ rfl (by simpa using hk)]
      simp [List.take_succ_cons]

/-! ## Claim theorems -/

/-- C10: `Tuple::normalise` never panics and returns a tuple with w = 0 (a
vector, `is_vector`) whenever the input has nonzero magnitude, even when the
argument is a point; by contrast `dot`, `cross` and `reflect` assert that
both operands are vectors and abort (modelled as `none`) otherwise. -/
theorem normalise_total_unlike_dot_cross_reflect :
    (∀ t : Tuple, t.magnitude ≠ 0 →
      t.normalise.w = 0 ∧ t.normalise.is_vector = true) ∧
    (∀ a b : Tuple, ¬(a.is_vector && b.is_vector) = true →
      a.dot_checked b = none ∧ a.cross_checked b = none ∧
        a.reflect_checked b = none) := by
  constructor
  · intro t _
    refine ⟨rfl, ?_⟩
    with_unfolding_all rfl
  · intro a b h
    refine ⟨?_, ?_, ?_⟩ <;>
      simp [Tuple.dot_checked, Tuple.cross_checked, Tuple.reflect_checked, h]

/-- Witness for C10 at the point (1, 2, 2): magnitude 3 is nonzero,
normalising it yields w = 0, and `dot_checked` on two points is `none`. -/
theorem normalise_total_unlike_dot_cross_reflect_witness :
    ((Tuple.point_new 1 2 2).magnitude ≠ 0 ∧
      (Tuple.point_new 1 2 2).normalise.w = 0) ∧
    (¬((Tuple.point_new 1 2 2).is_vector &&
        (Tuple.point_new 1 2 2).is_vector) = true ∧
      (Tuple.point_new 1 2 2).dot_checked (Tuple.point_new 1 2 2) = none) := by
  have hmag : (Tuple.point_new 1 2 2).magnitude ≠ 0 := by
    with_unfolding_all decide
  have hvec : ¬((Tuple.point_new 1 2 2).is_vector &&
      (Tuple.point_new 1 2 2).is_vector) = true := by
    with_unfolding_all decide
  exact ⟨⟨hmag, (normalise_total_unlike_dot_cross_reflect.1 _ hmag).1⟩,
    ⟨hvec, (normalise_total_unlike_dot_cross_reflect.2 _ _ hvec).1⟩⟩

/-- C9: the normal stored in a `PreComputation` always has non-negative dot
product with the eye vector: whenever the raw `normal_at` normal dots
negatively with the eye vector, `prepare_computations` negates it and sets
`inside`. -/
theorem prepared_normal_faces_eye (i : Intersection) (r : Ray)
    (xs : List Intersection) :
    0 ≤ Tuple.dot (prepare_computations i r xs).normal
        (prepare_computations i r xs).eye_vec ∧
    (Tuple.dot (i.object.normal_at (r.position i.t)) r.direction.negate < 0 →
      (prepare_computations i r xs).inside = true ∧
      (prepare_computations i r xs).normal =
        (i.object.normal_at (r.position i.t)).negate) := by
  have heye : (prepare_computations i r xs).eye_vec = r.direction.negate := rfl
  by_cases hd :
    Tuple.dot (i.object.normal_at (r.position i.t)) r.direction.negate < 0
  · have hnormal : (prepare_computations i r xs).normal =
        (i.object.normal_at (r.position i.t)).negate := by
      unfold prepare_computations
      simp [hd]
    have hinside : (prepare_computations i r xs).inside = true := by
      unfold prepare_computations
      simp [hd]
    refine ⟨?_, fun _ => ⟨hinside, hnormal⟩⟩
    rw [hnormal, heye, dot_negate_left]
    linarith
  · have hnormal : (prepare_computations i r xs).normal =
        i.object.normal_at (r.position i.t) := by
      unfold prepare_computations
      simp [hd]
    refine ⟨?_, fun h => absurd h hd⟩
    rw [hnormal, heye]
    exact le_of_not_lt hd

/-- Witness for C9: a ray starting inside the default sphere at its t = 1
intersection has a raw normal facing away from the eye, and the prepared
computation flags `inside`. -/
theorem prepared_normal_faces_eye_witness :
    Tuple.dot (i_inside.object.normal_at (ray_inside.position i_inside.t))
      ray_inside.direction.negate < 0 ∧
    (prepare_computations i_inside ray_inside [i_inside]).inside = true := by
  have h : Tuple.dot (i_inside.object.normal_at (ray_inside.position i_inside.t))
      ray_inside.direction.negate < 0 := by
    with_unfolding_all decide
  exact ⟨h,
    ((prepared_normal_faces_eye i_inside ray_inside [i_inside]).2 h).1⟩

/-- C3 counterexample: for the object-space ray with origin (0,-1,0) and
non-unit direction (0,2,0) against the default plane, the code's single root
is 1 (it divides by the normalised direction's y), not
`-origin.y / direction.y = 1/2` as the claim states. -/
theorem plane_root_counterexample :
    (plane0.intersects ray_plane).map Intersection.t ≠
      [-ray_plane.origin.y / ray_plane.direction.y] := by
  have h1 : (plane0.intersects ray_plane).map Intersection.t = [1] := by
    with_unfolding_all rfl
  have h2 : -ray_plane.origin.y / ray_plane.direction.y = 1 / 2 := by
    with_unfolding_all rfl
  rw [h1, h2]
  intro h
  simp only [List.cons.injEq, and_true] at h
  norm_num at h

/-- C3 (amended): a ray with `|direction.y| < 1e-5` (including one lying in
the plane) yields no intersections; otherwise exactly one intersection with
`t = -origin.y * |direction| / direction.y`, i.e. `-origin.y` divided by the
*normalised* direction's y, for the object-space ray. -/
theorem plane_intersects_parallel_or_root (pl : Shape) (r : Ray) :
    (|r.direction.y| < 1 / 100000 → plane.intersects pl r = []) ∧
    (¬|r.direction.y| < 1 / 100000 →
      plane.intersects pl r =
        [Intersection.new
          (-r.origin.y * r.direction.magnitude / r.direction.y) pl]) := by
  constructor
  · intro h
    unfold plane.intersects
    rw [if_pos h]
  · intro h
    have hy : -r.origin.y / r.direction.normalise.y =
        -r.origin.y * r.direction.magnitude / r.direction.y := by
      simp only [Tuple.normalise, Tuple.vector_new, Tuple.new]
      rw [div_div_eq_mul_div]
    unfold plane.intersects
    rw [if_neg h, hy]

/-- Witness for C3's amended theorem at the concrete non-parallel ray
(direction (0,2,0)). -/
theorem plane_intersects_parallel_or_root_witness :
    ¬|ray_plane.direction.y| < 1 / 100000 ∧
    plane.intersects plane0 ray_plane =
      [Intersection.new
        (-ray_plane.origin.y * ray_plane.direction.magnitude /
          ray_plane.direction.y) plane0] := by
  have h : ¬|ray_plane.direction.y| < 1 / 100000 := by
    with_unfolding_all decide
  exact ⟨h, (plane_intersects_parallel_or_root plane0 ray_plane).2 h⟩

/-- C7: `hit` filters to t >= 0 and selects the minimum by t (equality
within `f64::EPSILON` treated as equal, so the selected t is within an
epsilon of every qualifying t), returning none exactly when no intersection
has t >= 0; concretely over [1, 2] it returns t = 1, over [-1, 1] it
returns t = 1, and over [-1, -2] it returns none. -/
theorem hit_min_nonneg :
    (∀ xs : List Intersection, hit xs = none ↔ ∀ i ∈ xs, i.t < 0) ∧
    (∀ (xs : List Intersection) (i : Intersection), hit xs = some i →
      i ∈ xs ∧ 0 ≤ i.t ∧ ∀ j ∈ xs, 0 ≤ j.t → i.t < j.t + f64EPSILON) ∧
    hit [Intersection.new 1 sphere0, Intersection.new 2 sphere0] =
      some (Intersection.new 1 sphere0) ∧
    hit [Intersection.new (-1) sphere0, Intersection.new 1 sphere0] =
      some (Intersection.new 1 sphere0) ∧
    hit [Intersection.new (-1) sphere0, Intersection.new (-2) sphere0] =
      none := by
  refine ⟨?_, ?_, ?_, ?_, ?_⟩
  · intro xs
    unfold hit
    constructor
    · intro h i hi
      by_contra hneg
      push_neg at hneg
      have hmem : i ∈ xs.filter (fun x => decide (0 ≤ x.t)) :=
        List.mem_filter.2 ⟨hi, by simpa⟩
      cases hfe : xs.filter (fun x => decide (0 ≤ x.t)) with
      | nil =>
        rw [hfe] at hmem
        simp at hmem
      | cons c cs =>
        rw [hfe] at h
        simp only [List.foldl_cons] at h
        rw [show min_by_step none c = some c from rfl] at h
        obtain ⟨b, hb⟩ := min_by_fold_isSome cs c
        rw [hb] at h
        simp at h
    · intro hall
      have hfe : xs.filter (fun x => decide (0 ≤ x.t)) = [] := by
        rw [List.filter_eq_nil_iff]
        intro a ha
        simpa using not_le.2 (hall a ha)
      rw [hfe]
      rfl
  · intro xs i h
    unfold hit at h
    cases hfe : xs.filter (fun x => decide (0 ≤ x.t)) with
    | nil =>
      rw [hfe] at h
      simp at h
    | cons c cs =>
      rw [hfe] at h
      simp only [List.foldl_cons] at h
      rw [show min_by_step none c = some c from rfl] at h
      obtain ⟨hmem, hle, hall⟩ := min_by_fold_spec cs c i h
      have hi_mem_f : i ∈ xs.filter (fun x => decide (0 ≤ x.t)) := by
        rw [hfe]
        rcases hmem with rfl | hm
        · exact List.mem_cons_self _ _
        · exact List.mem_cons_of_mem _ hm
      have hi_xs := (List.mem_filter.1 hi_mem_f).1
      have hi_pos : 0 ≤ i.t := by
        have := (List.mem_filter.1 hi_mem_f).2
        simpa using this
      refine ⟨hi_xs, hi_pos, ?_⟩
      intro j hj hjpos
      have hj_f : j ∈ xs.filter (fun x => decide (0 ≤ x.t)) :=
        List.mem_filter.2 ⟨hj, by simpa⟩
      rw [hfe] at hj_f
      have he : (0 : ℚ) < f64EPSILON := by norm_num [f64EPSILON]
      rcases List.mem_cons.1 hj_f with rfl | hj2
      · linarith
      · exact hall j hj2
  · with_unfolding_all rfl
  · with_unfolding_all rfl
  · with_unfolding_all rfl

/-- Witness for C7's minimality clause at the concrete list [-1, 1]: `hit`
returns the t = 1 intersection, which is a member with non-negative t. -/
theorem hit_min_nonneg_witness :
    hit [Intersection.new (-1) sphere0, Intersection.new 1 sphere0] =
      some (Intersection.new 1 sphere0) ∧
    Intersection.new 1 sphere0 ∈
      [Intersection.new (-1) sphere0, Intersection.new 1 sphere0] ∧
    0 ≤ (Intersection.new 1 sphere0).t := by
  have h : hit [Intersection.new (-1) sphere0, Intersection.new 1 sphere0] =
      some (Intersection.new 1 sphere0) := by
    with_unfolding_all rfl
  obtain ⟨hm, hp, _⟩ := hit_min_nonneg.2.1 _ _ h
  exact ⟨h, hm, hp⟩

set_option maxHeartbeats 1000000 in
/-- C8: for every 4x4 matrix with nonzero determinant and every tuple,
applying the cofactor-method `inverse` to the image of the tuple under the
matrix gives back the tuple, up to the epsilon tuple equality (the
round trip is in fact exact over exact rationals). -/
theorem inverse_round_trip (M : Mat4) (p : Tuple)
    (hdet : determinant4 M ≠ 0) :
    Tuple.tupleEq (matVecMul (inverse M) (matVecMul M p)) p = true := by
  have key : matVecMul (inverse M) (matVecMul M p) = p := by
    obtain ⟨px, py, pz, pw⟩ := p
    simp only [matVecMul, inverse]
    simp only [Tuple.new, mk4x4]
    simp [entry]
    refine ⟨?_, ?_, ?_, ?_⟩ <;>
      (field_simp
       simp [determinant4, cofactor4, minor4, determinant3, cofactor3, minor3,
         determinant2, submatrix4, submatrix3, subIdx, entry, mk3x3]
       ring)
  rw [key]
  exact tupleEq_self p

/-- Witness for C8 at the translation by (5, -3, 2) applied to the point
(-3, 4, 5). -/
theorem inverse_round_trip_witness :
    determinant4 (translation 5 (-3) 2) ≠ 0 ∧
    Tuple.tupleEq
      (matVecMul (inverse (translation 5 (-3) 2))
        (matVecMul (translation 5 (-3) 2) (Tuple.point_new (-3) 4 5)))
      (Tuple.point_new (-3) 4 5) = true := by
  have h : determinant4 (translation 5 (-3) 2) ≠ 0 := by
    with_unfolding_all decide
  exact ⟨h, inverse_round_trip _ _ h⟩

/-- C1: `prepare_computations` determines (n1, n2) by walking the sorted
intersections with a containment stack: at the first occurrence of the hit,
n1 is the refractive index of the stack top (1.0 if empty) before toggling
the hit's object and n2 the top after toggling; and for the three concentric
glass spheres (uniform scale 2, translations -0.25 and +0.25 in z,
refractive indices 1.5/2.0/2.5) with the axis ray, the six ordered
intersections yield exactly the pairs
(1,1.5), (1.5,2), (2,2.5), (2.5,2.5), (2.5,1.5), (1.5,1). -/
theorem refractive_indices_stack :
    (∀ (i : Intersection) (r : Ray) (xs : List Intersection) (k : ℕ),
      xs.findIdx (fun x => intersectionEq i x) = k → k < xs.length →
      (prepare_computations i r xs).n1 =
        stack_last_refractive (containment_stack (xs.take k)) ∧
      (prepare_computations i r xs).n2 =
        stack_last_refractive (containment_stack (xs.take (k + 1)))) ∧
    xs_concentric.map
        (fun i => ((prepare_computations i ray_z xs_concentric).n1,
          (prepare_computations i ray_z xs_concentric).n2)) =
      [(1, 3 / 2), (3 / 2, 2), (2, 5 / 2), (5 / 2, 5 / 2), (5 / 2, 3 / 2),
        (3 / 2, 1)] := by
  constructor
  · intro i r xs k hfind hk
    have h1 : (prepare_computations i r xs).n1 = (refractive_walk i [] xs).1 :=
      rfl
    have h2 : (prepare_computations i r xs).n2 = (refractive_walk i [] xs).2 :=
      rfl
    rw [h1, h2, refractive_walk_characterisation i xs [] k hfind hk]
    exact ⟨rfl, rfl⟩
  · with_unfolding_all rfl

/-- Witness for C1's stack characterisation at the second concentric
intersection (t = 2.75, the middle sphere), whose first occurrence is at
index 1. -/
theorem refractive_indices_stack_witness :
    (xs_concentric.findIdx
        (fun x => intersectionEq (Intersection.new (11 / 4) glassB) x) = 1 ∧
      1 < xs_concentric.length) ∧
    (prepare_computations (Intersection.new (11 / 4) glassB) ray_z
        xs_concentric).n1 =
      stack_last_refractive (containment_stack (xs_concentric.take 1)) ∧
    (prepare_computations (Intersection.new (11 / 4) glassB) ray_z
        xs_concentric).n2 =
      stack_last_refractive (containment_stack (xs_concentric.take 2)) := by
  have hfind : xs_concentric.findIdx
      (fun x => intersectionEq (Intersection.new (11 / 4) glassB) x) = 1 := by
    with_unfolding_all rfl
  have hlen : 1 < xs_concentric.length := by
    with_unfolding_all decide
  exact ⟨⟨hfind, hlen⟩,
    refractive_indices_stack.1 _ ray_z _ 1 hfind hlen⟩

/-- C4: `refracted_colour` realises the spec's description — black on zero
transparency or exhausted recursion, black on total internal reflection
(`sin2_t > 1`), else `colour_at` of the ray cast from the under point along
`normal*(n_ratio*cos_i - cos_t) - eye*n_ratio` at depth - 1, scaled by the
transparency. -/
theorem refracted_colour_matches_spec (w : World) (c : PreComputation)
    (n : ℕ) : refracted_colour w c n = refracted_colour_spec w c n := by
  by_cases hT : c.object.material.transparency = 0 <;>
    by_cases hn : n = 0 <;>
    by_cases hS :
      (c.n1 / c.n2) ^ 2 * (1 - Tuple.dot c.eye_vec c.normal ^ 2) > 1 <;>
    simp [refracted_colour, refracted_colour_spec, hT, hn, hS]

/-- C5: the recursion of the shading engine is bounded by the explicit
depth: at depth 0 both the reflected and the refracted contributions are
black (graceful truncation), and at depth n + 1 each recursive call into
`colour_at` is made at depth n (so the mutual recursion of `colour_at`,
`reflected_colour` and `refracted_colour` — a total function here —
terminates for every world, ray and budget, including mutually reflective
parallel planes). -/
theorem recursion_depth_truncation :
    (∀ (w : World) (c : PreComputation),
      reflected_colour w c 0 = Colour.new 0 0 0) ∧
    (∀ (w : World) (c : PreComputation),
      refracted_colour w c 0 = Colour.black) ∧
    (∀ (w : World) (c : PreComputation) (n : ℕ),
      reflected_colour w c (n + 1) =
        if c.object.material.reflectivity = 0 then Colour.new 0 0 0
        else (colour_at w (Ray.new c.over_point c.reflect_vec) n).smul
          c.object.material.reflectivity) ∧
    (∀ (w : World) (c : PreComputation) (n : ℕ),
      refracted_colour w c (n + 1) =
        if c.object.material.transparency = 0 ∨
            (c.n1 / c.n2) ^ 2 * (1 - Tuple.dot c.eye_vec c.normal ^ 2) > 1 then
          Colour.black
        else
          (colour_at w
            (Ray.new c.under_point
              ((c.normal.smul
                  (c.n1 / c.n2 * Tuple.dot c.eye_vec c.normal -
                    fsqrt (1 - (c.n1 / c.n2) ^ 2 *
                      (1 - Tuple.dot c.eye_vec c.normal ^ 2)))).sub
                (c.eye_vec.smul (c.n1 / c.n2)))) n).smul
          c.object.material.transparency) := by
  refine ⟨?_, ?_, ?_, ?_⟩
  · intro w c
    simp [reflected_colour]
  · intro w c
    simp [refracted_colour]
  · intro w c n
    by_cases h : c.object.material.reflectivity = 0 <;>
      simp [reflected_colour, h]
  · intro w c n
    by_cases hT : c.object.material.transparency = 0 <;>
      by_cases hS :
        (c.n1 / c.n2) ^ 2 * (1 - Tuple.dot c.eye_vec c.normal ^ 2) > 1 <;>
      simp [refracted_colour, hT, hS]

/-- C6 counterexample: `Camera::new` does not compute the derived scalars at
construction — a freshly constructed camera stores `None` for all three. -/
theorem camera_new_stores_no_derived_scalars :
    (Camera.new 4 2 1 identity4).half_width = none ∧
    (Camera.new 4 2 1 identity4).half_height = none ∧
    (Camera.new 4 2 1 identity4).pixel_size = none :=
  ⟨rfl, rfl, rfl⟩

/-- C6 (amended): the three derived scalars are computed lazily, on first
access, from `(hsize, vsize, field_of_view)` by the half-view/aspect
formulas, and are memoised: the constructor stores `None`; each getter
computes and caches on `None` and returns the cache otherwise; the first
`ray_for_pixel` fills all three caches with the formula values; and
`ray_for_pixel` on a fully cached camera never recomputes (it leaves the
camera unchanged). -/
theorem camera_scalars_lazily_memoised :
    (∀ (h v : ℕ) (fov : ℚ) (t : Mat4),
      (Camera.new h v fov t).half_width = none ∧
      (Camera.new h v fov t).half_height = none ∧
      (Camera.new h v fov t).pixel_size = none) ∧
    (∀ c : Camera, c.half_width = none →
      let f := half_width_formula c.hsize c.vsize c.field_of_view
      c.half_width_get = (f, { c with half_width := some f })) ∧
    (∀ (c : Camera) (v : ℚ), c.half_width = some v →
      c.half_width_get = (v, c)) ∧
    (∀ c : Camera, c.half_height = none →
      let f := half_height_formula c.hsize c.vsize c.field_of_view
      c.half_height_get = (f, { c with half_height := some f })) ∧
    (∀ (c : Camera) (v : ℚ), c.half_height = some v →
      c.half_height_get = (v, c)) ∧
    (∀ c : Camera, c.pixel_size = none → c.half_width = none →
      let fw := half_width_formula c.hsize c.vsize c.field_of_view
      let fp := pixel_size_formula c.hsize c.vsize c.field_of_view
      c.pixel_size_get =
        (fp, { c with half_width := some fw, pixel_size := some fp })) ∧
    (∀ (c : Camera) (v : ℚ), c.pixel_size = some v →
      c.pixel_size_get = (v, c)) ∧
    (∀ (h v : ℕ) (fov : ℚ) (t : Mat4) (x y : ℕ),
      let fw := half_width_formula h v fov
      let fh := half_height_formula h v fov
      let fp := pixel_size_formula h v fov
      ((Camera.new h v fov t).ray_for_pixel x y).2 =
        { Camera.new h v fov t with
          half_width := some fw, half_height := some fh,
          pixel_size := some fp }) ∧
    (∀ (c : Camera) (hw hh ps : ℚ) (x y : ℕ),
      c.half_width = some hw → c.half_height = some hh →
      c.pixel_size = some ps → (c.ray_for_pixel x y).2 = c) := by
  refine ⟨fun h v fov t => ⟨rfl, rfl, rfl⟩, ?_, ?_, ?_, ?_, ?_, ?_, ?_, ?_⟩
  · intro c h
    unfold Camera.half_width_get half_width_formula
    rw [h]
  · intro c v h
    unfold Camera.half_width_get
    rw [h]
  · intro c h
    unfold Camera.half_height_get half_height_formula
    rw [h]
  · intro c v h
    unfold Camera.half_height_get
    rw [h]
  · intro c hps hhw
    unfold Camera.pixel_size_get Camera.half_width_get pixel_size_formula
      half_width_formula
    rw [hps, hhw]
  · intro c v h
    unfold Camera.pixel_size_get
    rw [h]
  · intro h v fov t x y
    rfl
  · intro c hw hh ps x y h1 h2 h3
    have e1 : c.pixel_size_get = (ps, c) := by
      unfold Camera.pixel_size_get
      rw [h3]
    have e2 : c.half_width_get = (hw, c) := by
      unfold Camera.half_width_get
      rw [h1]
    have e3 : c.half_height_get = (hh, c) := by
      unfold Camera.half_height_get
      rw [h2]
    simp [Camera.ray_for_pixel, e1, e2, e3]

/-- Witness for C6's amended theorem: the getter on a freshly constructed
4x2 camera computes and caches the half-width formula. -/
theorem camera_scalars_lazily_memoised_witness :
    (Camera.new 4 2 1 identity4).half_width = none ∧
    (let c := Camera.new 4 2 1 identity4
     let f := half_width_formula c.hsize c.vsize c.field_of_view
     c.half_width_get = (f, { c with half_width := some f })) := by
  have h : (Camera.new 4 2 1 identity4).half_width = none := rfl
  exact ⟨h, camera_scalars_lazily_memoised.2.1 (Camera.new 4 2 1 identity4) h⟩

/-- C2 (code bug evidence): the render loop runs over
`0..hsize-1 × 0..vsize-1`, so on a 2x2 camera with a constant-white colour
function only pixel (0,0) is written; the last row and column stay at the
canvas default black even though the image has the requested dimensions. -/
theorem render_skips_last_row_and_column :
    (render white_fn camera_small world_empty).width = 2 ∧
    (render white_fn camera_small world_empty).height = 2 ∧
    (render white_fn camera_small world_empty).pixel_at 0 0 = Colour.white ∧
    (render white_fn camera_small world_empty).pixel_at 1 0 =
      Colour.new 0 0 0 ∧
    (render white_fn camera_small world_empty).pixel_at 0 1 =
      Colour.new 0 0 0 ∧
    (render white_fn camera_small world_empty).pixel_at 1 1 =
      Colour.new 0 0 0 := by
  refine ⟨?_, ?_, ?_, ?_, ?_, ?_⟩ <;> with_unfolding_all rfl

end Rusrat
